import Mathlib

/-!
Verification of the radix-tree router in `src/router.ts` of metadream/deno-spring.

The embedding below is a direct shallow embedding of `router.ts`:
strings are `List Char`, JavaScript `Map`s are insertion-ordered association
lists (`mapGet` / `mapSet` / `mapDelete` mirror `Map.get` / `Map.set` /
`Map.delete`), handlers (`Callback`) are opaque identifiers compared by
identity, and the in-place mutation of the tree during `Radix.add` is
rendered in continuation-passing style: in the source, `merge` and `insert`
return an alias of a node inside the tree so later statements of `add`
mutate the tree through it; here they take a continuation `k` that is
applied to that node, and they return the whole rebuilt subtree.
Recursive tree descent uses explicit fuel; `RouterError.outOfFuel` never
occurs for the fuel values used in the theorems.
-/

set_option autoImplicit false

namespace DenoSpring

/-- Opaque handler reference; the source compares callbacks with `===`
(reference identity), modelled as equality of identifiers. -/
abbrev Callback := Nat

/-- Strings of the model; JavaScript strings become lists of characters. -/
abbrev Str := List Char

/-- Conversion from Lean string literals for readable statements. -/
def chars (x : String) : Str := x.data

/-- Parameter bindings: the `Map<string, string>` built by `Radix.find`. -/
abbrev Bindings := List (Str × Str)

/-- `Map.get`: first entry with the given key, if any. -/
def mapGet {κ α : Type} [DecidableEq κ] : List (κ × α) → κ → Option α
  | [], _ => none
  | (k1, v) :: rest, k => if k1 = k then some v else mapGet rest k

/-- `Map.set`: update the entry in place if the key exists (keeping
insertion order), otherwise append a new entry. -/
def mapSet {κ α : Type} [DecidableEq κ] : List (κ × α) → κ → α → List (κ × α)
  | [], k, v => [(k, v)]
  | (k1, v1) :: rest, k, v =>
    if k1 = k then (k, v) :: rest else (k1, v1) :: mapSet rest k v

/-- `Map.delete`: remove the entry with the given key. -/
def mapDelete {κ α : Type} [DecidableEq κ] (m : List (κ × α)) (k : κ) : List (κ × α) :=
  m.filter (fun p => p.1 ≠ k)

/-- Registration-time errors thrown by `Radix.add` (source lines 93-106,
209-214, 246-253), as a structured taxonomy; the payloads are the strings
interpolated into the thrown `Error` messages.  `outOfFuel` is an artefact
of the fuel-based embedding and never occurs at the fuel used here. -/
inductive RouterError where
  | wildcardConflict (token : Str) (path : Str)
  | emptyParamName (path : Str)
  | duplicateHandler (path : Str)
  | outOfFuel
deriving DecidableEq, Repr

/-- Source `isWildcard`: a marker character is `:` or `*`. -/
def isWildcard (c : Char) : Bool := c == ':' || c == '*'

/-- Source `longestCommonPrefix`. -/
def longestCommonPrefix : Str → Str → Nat
  | a :: as1, b :: bs1 => if a = b then longestCommonPrefix as1 bs1 + 1 else 0
  | _, _ => 0

/-- Source `splitFromFirstSlash`: the run before the first `/` and the
suffix starting at it. -/
def splitFromFirstSlash (path : Str) : Str × Str :=
  (path.takeWhile (fun c => c != '/'), path.dropWhile (fun c => c != '/'))

/-- A radix-tree node: `path` label, insertion-ordered children keyed by the
first character of their label (`*` and `:` act as the wildcard and
parameter keys), and an optional bound handler (source lines 65-73). -/
inductive Radix where
  | mk (path : Str) (children : List (Char × Radix)) (handler : Option Callback)
deriving Repr

/-- Label of a node. -/
def Radix.path : Radix → Str
  | .mk p _ _ => p

/-- Children of a node. -/
def Radix.children : Radix → List (Char × Radix)
  | .mk _ c _ => c

/-- Handler bound at a node, if any. -/
def Radix.handler : Radix → Option Callback
  | .mk _ _ h => h

/-- A fresh empty tree (`new Radix()`). -/
def Radix.empty : Radix := .mk [] [] none

/-- Key used for `children` lookups by `path[0]`; only ever applied to
nonempty labels in reachable code. -/
def headKey (s : Str) : Char := s.headD (Char.ofNat 0)

/-- Source `Radix.merge` (lines 200-257), in continuation-passing style:
the source returns an alias of a node inside the tree which later calls
mutate; here the continuation `k` is applied to that node and the rebuilt
subtree is returned.  The three outcomes of one loop iteration are: split
the current node when the common prefix is shorter than its label, descend
into (or create) the child keyed by the next character, or bind the handler
at the current node (duplicate registration being an error). -/
def Radix.merge (fuel : Nat) (n : Radix) (path : Str) (handler : Option Callback)
    (k : Radix → Except RouterError Radix) : Except RouterError Radix :=
  match fuel with
  | 0 => .error .outOfFuel
  | fuel + 1 =>
    if n.path.isEmpty && n.children.isEmpty then
      k (.mk path n.children handler)
    else if path = [] then
      match n.handler with
      | some _ => .error (.duplicateHandler n.path)
      | none => k (.mk n.path n.children handler)
    else
      let i := longestCommonPrefix path n.path
      let n1 : Radix :=
        if i < n.path.length then
          .mk (path.take i)
            [(headKey (n.path.drop i), .mk (n.path.drop i) n.children n.handler)] none
        else n
      if i < path.length then
        let path1 := path.drop i
        match mapGet n1.children (headKey path1) with
        | some c => do
          let c1 ← Radix.merge fuel c path1 handler k
          .ok (.mk n1.path (mapSet n1.children (headKey path1) c1) n1.handler)
        | none => do
          let c1 ← k (.mk path1 [] handler)
          .ok (.mk n1.path (mapSet n1.children (headKey path1) c1) n1.handler)
      else
        match handler with
        | some _ =>
          match n1.handler with
          | some _ => .error (.duplicateHandler path)
          | none => k (.mk n1.path n1.children handler)
        | none => k n1

/-- Source `Radix.insert` (lines 259-271), in the same continuation style:
merge into the child keyed by `path[0]` if present, otherwise create it. -/
def Radix.insert (fuel : Nat) (n : Radix) (path : Str) (handler : Option Callback)
    (k : Radix → Except RouterError Radix) : Except RouterError Radix :=
  match mapGet n.children (headKey path) with
  | some c => do
    let c1 ← Radix.merge fuel c path handler k
    .ok (.mk n.path (mapSet n.children (headKey path) c1) n.handler)
  | none => do
    let c1 ← k (.mk path [] handler)
    .ok (.mk n.path (mapSet n.children (headKey path) c1) n.handler)

/-- Inner scan of `Radix.add` (source lines 93-100): starting just after a
marker with `tok` holding the token scanned so far (`path.slice(j, i)`),
advance to the next `/` or the end of the pattern; a second marker in the
same path segment is a wildcard conflict. -/
def scanSeg (path : Str) (tok : Str) : Str → Except RouterError (Str × Str)
  | [] => .ok (tok, [])
  | c :: cs =>
    if c = '/' then .ok (tok, c :: cs)
    else if isWildcard c then .error (.wildcardConflict tok path)
    else scanSeg path (tok ++ [c]) cs

/-- Outer loop of `Radix.add` (source lines 83-118) from position `j`
onward, acting on the current node `n`: insert the pending static run, scan
the marker token (rejecting a second marker in the segment and an empty
parameter name), insert the token, and continue; at the end of the pattern
bind the handler by a final `merge ""` or `insert`. -/
def addSuffix (path : Str) (handler : Callback) : Nat → Str → Radix → Except RouterError Radix
  | 0, _, _ => .error .outOfFuel
  | fuel + 1, rest, n =>
    let stat := rest.takeWhile (fun c => !(isWildcard c))
    match rest.drop stat.length with
    | [] =>
      if stat.isEmpty then Radix.merge fuel n [] (some handler) Except.ok
      else Radix.insert fuel n stat (some handler) Except.ok
    | m :: tail =>
      let step : Radix → Except RouterError Radix := fun n1 => do
        let (tok, rest2) ← scanSeg path [m] tail
        if m = ':' ∧ tok.length = 1 then .error (.emptyParamName path)
        else Radix.insert fuel n1 tok none (fun n2 => addSuffix path handler fuel rest2 n2)
      if stat.isEmpty then step n
      else Radix.insert fuel n stat none step

/-- Source `Radix.add` (lines 75-119): merge the static run up to the first
marker, then process the rest of the pattern with `addSuffix`. -/
def Radix.add (fuel : Nat) (n : Radix) (path : Str) (handler : Callback) :
    Except RouterError Radix :=
  let s0 := path.takeWhile (fun c => !(isWildcard c))
  Radix.merge fuel n s0 none (fun n1 => addSuffix path handler fuel (path.drop s0.length) n1)

/-- One entry of the explicit search stack of `Radix.find`
(`[node, path, vis]`, source line 124). -/
structure Frame where
  node : Radix
  rem : Str
  vis : Bool

/-- Child pushes at the end of one `Radix.find` iteration (source lines
177-194): push the wildcard child, then (unless the next path is empty) the
parameter child, then the child keyed by the next character, so that the
stack pops them in the order static, parameter, wildcard. -/
def pushChildren (n : Radix) (np : Str) (stack : List Frame) : List Frame :=
  let stack1 := match mapGet n.children '*' with
    | some c => { node := c, rem := np, vis := false } :: stack
    | none => stack
  if np = [] then stack1
  else
    let stack2 := match mapGet n.children ':' with
      | some c => { node := c, rem := np, vis := false } :: stack1
      | none => stack1
    match np with
    | [] => stack2
    | c0 :: _ =>
      match mapGet n.children c0 with
      | some c => { node := c, rem := np, vis := false } :: stack2
      | none => stack2

/-- Main loop of `Radix.find` (source lines 128-195).  The stack is the
live prefix `stack[0..i]` of the source's array, top first.  A frame met
with `vis` set is being backtracked out of: it is popped and, if it is a
parameter node, its binding is deleted by name.  Otherwise the frame is
marked visited and handled by node kind: a wildcard node binds its name (if
nonempty) to the whole remaining suffix and terminates; a parameter node
binds its name to the run before the next `/`, terminating if nothing
follows; a static node matches exactly (an already-matched node without a
handler continues into its wildcard child, if any) or by strict label
prefix; on a mismatch the frame is popped. -/
def findLoop : Nat → List Frame → Bindings → Option Callback × Bindings
  | 0, _, params => (none, params)
  | fuel + 1, stack, params =>
    match stack with
    | [] => (none, params)
    | f :: rest =>
      if f.vis then
        if f.node.path.head? = some ':' then
          findLoop fuel rest (mapDelete params (f.node.path.drop 1))
        else
          findLoop fuel rest params
      else
        let g : Frame := { node := f.node, rem := f.rem, vis := true }
        if f.node.path.head? = some '*' then
          let params1 :=
            if 1 < f.node.path.length then mapSet params (f.node.path.drop 1) f.rem else params
          (f.node.handler, params1)
        else if f.node.path.head? = some ':' then
          let cp := (splitFromFirstSlash f.rem).1
          let np0 := (splitFromFirstSlash f.rem).2
          let params1 := mapSet params (f.node.path.drop 1) cp
          if np0 = [] then (f.node.handler, params1)
          else findLoop fuel (pushChildren f.node np0 (g :: rest)) params1
        else if f.node.path = f.rem then
          match f.node.handler with
          | none =>
            if (mapGet f.node.children '*').isSome then
              findLoop fuel (pushChildren f.node [] (g :: rest)) params
            else
              findLoop fuel rest params
          | some h => (some h, params)
        else
          let lcp := longestCommonPrefix f.node.path f.rem
          if lcp ≠ f.node.path.length then findLoop fuel rest params
          else findLoop fuel (pushChildren f.node (f.rem.drop lcp) (g :: rest)) params

/-- Source `Radix.find` (lines 121-198): run the search from the root with
fresh, call-local bindings. -/
def Radix.find (fuel : Nat) (n : Radix) (path : Str) : Option Callback × Bindings :=
  findLoop fuel [{ node := n, rem := path, vis := false }] []

/-- Modelled from the spec: the `Route` record of `defs.ts`, which is not
under `src/`; its fields are reconstructed from their uses in `router.ts`
(`method`, `path`, `callback`, `params`) and spec section 3's RouteEntry
(`auxiliary metadata`, the `template` of `app.ts`). -/
structure Route where
  method : Str
  path : Str
  callback : Callback
  template : Option Str := none
  params : Bindings := []
deriving DecidableEq, Repr

/-- The `Router` class state (source lines 8-18): one `Radix` per method
string, plus the append-only list of all registered routes. -/
structure Router where
  radixGroup : List (Str × Radix) := []
  routes : List Route := []

/-- Source `Router.add` (lines 24-32): fetch or create the method's tree,
add the pattern, and append the route to the route list. -/
def Router.add (fuel : Nat) (r : Router) (route : Route) : Except RouterError Router := do
  let radix := (mapGet r.radixGroup route.method).getD Radix.empty
  let radix1 ← Radix.add fuel radix route.path route.callback
  .ok { radixGroup := mapSet r.radixGroup route.method radix1, routes := r.routes ++ [route] }

/-- Source `this._routes.find(v => v.callback === callback)` (line 48). -/
def routesFind : List Route → Callback → Option Route
  | [], _ => none
  | v :: rest, cb => if v.callback = cb then some v else routesFind rest cb

/-- Effect of `route.params = {}; for (...) route.params[k] = v` (lines
50-51) on the stored route list: the first route with the given callback
gets its `params` field overwritten. -/
def setRouteParams : List Route → Callback → Bindings → List Route
  | [], _, _ => []
  | v :: rest, cb, ps =>
    if v.callback = cb then
      { v with params := ps } :: rest
    else
      v :: setRouteParams rest cb ps

/-- Source `Router.find` (lines 40-56): look up the method's tree, search
it, and on a hit re-find the full route by callback identity, overwriting
its `params` in place; the returned router carries that in-place update. -/
def Router.find (fuel : Nat) (r : Router) (method : Str) (path : Str) :
    Option Route × Router :=
  match mapGet r.radixGroup method with
  | none => (none, r)
  | some radix =>
    match Radix.find fuel radix path with
    | (some cb, params) =>
      match routesFind r.routes cb with
      | some route =>
        (some { route with params := params },
         { radixGroup := r.radixGroup, routes := setRouteParams r.routes cb params })
      | none => (none, r)
    | (none, _) => (none, r)

/-! ### Concrete route tables used by the claims -/

/-- Registration that discards a failed add, for building concrete routers. -/
def addD (fuel : Nat) (r : Router) (m p : String) (cb : Callback) : Router :=
  ((Router.add fuel r { method := chars m, path := chars p, callback := cb }).toOption).getD r

/-- Registration that discards a failed add, for building concrete trees. -/
def addT (fuel : Nat) (t : Radix) (p : String) (cb : Callback) : Radix :=
  ((Radix.add fuel t (chars p) cb).toOption).getD t

/-- Router with `GET /users/:id` (callback 1) and `GET /users/new`
(callback 2), the spec's precedence example. -/
def usersRouter : Router :=
  addD 100 (addD 100 {} "GET" "/users/:id" 1) "GET" "/users/new" 2

/-- Tree with a static child (`/a/xy`, callback 1), a parameter child
(`/a/:b/c`, callback 2) and a wildcard child (`/a/*w`, callback 3) at the
same branch point. -/
def c1Tree : Radix :=
  addT 100 (addT 100 (addT 100 Radix.empty "/a/xy" 1) "/a/:b/c" 2) "/a/*w" 3

/-- Tree with only `/a/*w` (callback 3). -/
def onlyWildcardTree : Radix := addT 100 Radix.empty "/a/*w" 3

/-- Tree with `GET /files/*rest` (callback 7), the spec's wildcard example. -/
def filesTree : Radix := addT 100 Radix.empty "/files/*rest" 7

/-- Tree with `/:x/b:x/c` (callback 1) and `/:x/b*w` (callback 3): the
parameter name `x` occurs at two depths. -/
def c3Tree : Radix := addT 100 (addT 100 Radix.empty "/:x/b:x/c" 1) "/:x/b*w" 3

/-- Tree with only `/:x/b*w` (callback 3). -/
def c3Solo : Radix := addT 100 Radix.empty "/:x/b*w" 3

/-- Router with one route `GET /u/:id` (callback 5). -/
def paramRouter : Router := addD 100 {} "GET" "/u/:id" 5

/-- Router registering the same callback 5 under `GET /a` first and
`GET /b/:z` second. -/
def sharedCallbackRouter : Router :=
  addD 100 (addD 100 {} "GET" "/a" 5) "GET" "/b/:z" 5

/-! ### Claims -/

/-- C1, counterexample.  `c1Tree` has a static child, a parameter child and
a wildcard child at the same branch point (first three conjuncts).  On
`find "/a/x"` the static sub-path fails (`"xy"` does not match `"x"`), the
search backtracks to the parameter child `:b`, which consumes the whole
remaining suffix `"x"` at a node without a handler — and the search then
terminates with no match instead of backtracking to the wildcard child,
although the wildcard sub-path alone matches the same path with `w = "x"`
(last conjunct).  This contradicts the claim that after the parameter
child's sub-path fails the wildcard child is attempted. -/
theorem c1_counterexample :
    (mapGet c1Tree.children 'x').isSome = true ∧
    (mapGet c1Tree.children ':').isSome = true ∧
    (mapGet c1Tree.children '*').isSome = true ∧
    Radix.find 100 c1Tree (chars "/a/x") = (none, [(chars "b", chars "x")]) ∧
    Radix.find 100 onlyWildcardTree (chars "/a/x") = (some 3, [(chars "w", chars "x")]) :=
  ⟨rfl, rfl, rfl, rfl, rfl⟩

/-- C1, amended.  With `GET /users/:id` and `GET /users/new` registered,
`find("GET","/users/new")` returns the static handler, and
`find("GET","/users/42")` returns the `:id` handler with `id = "42"`; a
static child that is attempted and fails is backtracked out of in favour of
the parameter child (`/users/nx` matches `:id` with `id = "nx"`).  The
wildcard child, however, is not attempted when a parameter sibling consumed
the entire remaining suffix at a handlerless node: on `c1Tree`,
`find "/a/x"` returns no match even though the wildcard pattern matches. -/
theorem c1_amended_precedence :
    (Router.find 100 usersRouter (chars "GET") (chars "/users/new")).1 =
      some { method := chars "GET", path := chars "/users/new", callback := 2 } ∧
    (Router.find 100 usersRouter (chars "GET") (chars "/users/42")).1 =
      some { method := chars "GET", path := chars "/users/:id", callback := 1,
             params := [(chars "id", chars "42")] } ∧
    (Router.find 100 usersRouter (chars "GET") (chars "/users/nx")).1 =
      some { method := chars "GET", path := chars "/users/:id", callback := 1,
             params := [(chars "id", chars "nx")] } ∧
    (Radix.find 100 c1Tree (chars "/a/x")).1 = none :=
  ⟨rfl, rfl, rfl, rfl⟩

/-- C2.  A wildcard node reached during `find` binds its name (when the
label carries one) to the entire remaining suffix, slashes included, and is
terminal: the search returns that node's handler with no further descent.
Concretely, after registering `GET /files/*rest`,
`find "/files/a/b/c"` yields the bound handler with `rest = "a/b/c"`. -/
theorem c2_wildcard_terminal :
    (∀ (fuel : Nat) (n : Radix) (p : Str) (rest : List Frame) (params : Bindings),
      n.path.head? = some '*' →
      findLoop (fuel + 1) ({ node := n, rem := p, vis := false } :: rest) params =
        (n.handler,
         if 1 < n.path.length then mapSet params (n.path.drop 1) p else params)) ∧
    Radix.find 100 filesTree (chars "/files/a/b/c") =
      (some 7, [(chars "rest", chars "a/b/c")]) := by
  constructor
  · intro fuel n p rest params h
    simp [findLoop, h]
  · rfl

/-- C2 witness: the general part applied to the concrete wildcard node
`*rest` with remaining suffix `a/b/c`. -/
theorem c2_wildcard_terminal_witness :
    (Radix.mk (chars "*rest") [] (some 7)).path.head? = some '*' ∧
    findLoop 5
        [{ node := Radix.mk (chars "*rest") [] (some 7), rem := chars "a/b/c", vis := false }]
        [] = (some 7, [(chars "rest", chars "a/b/c")]) :=
  ⟨rfl, c2_wildcard_terminal.1 4 (Radix.mk (chars "*rest") [] (some 7))
    (chars "a/b/c") [] [] rfl⟩

/-- C3, counterexample.  On `c3Tree` (patterns `/:x/b:x/c` and `/:x/b*w`),
`find "/u/bq/d"` matches the wildcard pattern `/:x/b*w`, whose captures —
as the single-pattern tree `c3Solo` shows — are `x = "u"` and
`w = "q/d"`.  But the returned bindings of the combined tree are only
`{w = "q/d"}`: the search first bound `x = "u"` at the outer parameter
node, overwrote it with `x = "q"` inside the failing `b:x/c` branch, and on
backtracking deleted the name `x` outright, erasing the outer capture of
the eventually matched pattern.  So a successful match does not contain
exactly the captures of the matched pattern. -/
theorem c3_counterexample :
    Radix.find 100 c3Tree (chars "/u/bq/d") = (some 3, [(chars "w", chars "q/d")]) ∧
    Radix.find 100 c3Solo (chars "/u/bq/d") =
      (some 3, [(chars "x", chars "u"), (chars "w", chars "q/d")]) :=
  ⟨rfl, rfl⟩

/-- C3, amended.  When the search backtracks out of a visited parameter
node, the binding for that node's name is removed before the next
alternative is tried (first conjunct); backtracking out of any other node
removes nothing (second conjunct), and a wildcard node never backtracks
because reaching one ends the search (third conjunct).  The removal is by
name only, so it also discards an identically named capture made by an
ancestor node of the eventually matched pattern: on `c3Tree`,
`find "/u/bq/d"` succeeds with bindings `{w = "q/d"}`, missing the
`x = "u"` capture of the matched pattern `/:x/b*w` (last conjuncts). -/
theorem c3_amended_backtrack_unbinds :
    (∀ (fuel : Nat) (f : Frame) (rest : List Frame) (params : Bindings),
      f.vis = true → f.node.path.head? = some ':' →
      findLoop (fuel + 1) (f :: rest) params =
        findLoop fuel rest (mapDelete params (f.node.path.drop 1))) ∧
    (∀ (fuel : Nat) (f : Frame) (rest : List Frame) (params : Bindings),
      f.vis = true → f.node.path.head? ≠ some ':' →
      findLoop (fuel + 1) (f :: rest) params = findLoop fuel rest params) ∧
    (∀ (fuel : Nat) (n : Radix) (p : Str) (rest : List Frame) (params : Bindings),
      n.path.head? = some '*' →
      findLoop (fuel + 1) ({ node := n, rem := p, vis := false } :: rest) params =
        (n.handler,
         if 1 < n.path.length then mapSet params (n.path.drop 1) p else params)) ∧
    Radix.find 100 c3Tree (chars "/u/bq/d") = (some 3, [(chars "w", chars "q/d")]) ∧
    Radix.find 100 c3Solo (chars "/u/bq/d") =
      (some 3, [(chars "x", chars "u"), (chars "w", chars "q/d")]) := by
  refine ⟨?_, ?_, ?_, rfl, rfl⟩
  · intro fuel f rest params hv h
    simp [findLoop, hv, h]
  · intro fuel f rest params hv h
    simp [findLoop, hv, h]
  · intro fuel n p rest params h
    simp [findLoop, h]

/-- C3 witness: the amended theorem's universal parts applied to concrete
frames — popping a visited `:b` frame deletes the binding `b`; popping a
visited static frame deletes nothing. -/
theorem c3_amended_backtrack_unbinds_witness :
    findLoop 3 [{ node := Radix.mk (chars ":b") [] none, rem := chars "q", vis := true }]
      [(chars "b", chars "q"), (chars "w", chars "t")] =
      (none, [(chars "w", chars "t")]) ∧
    findLoop 3 [{ node := Radix.mk (chars "ab") [] none, rem := chars "q", vis := true }]
      [(chars "b", chars "q")] = (none, [(chars "b", chars "q")]) := by
  constructor
  · have h := c3_amended_backtrack_unbinds.1 2
      { node := Radix.mk (chars ":b") [] none, rem := chars "q", vis := true } []
      [(chars "b", chars "q"), (chars "w", chars "t")] rfl rfl
    exact h
  · have h := c3_amended_backtrack_unbinds.2.1 2
      { node := Radix.mk (chars "ab") [] none, rem := chars "q", vis := true } []
      [(chars "b", chars "q")] rfl (by simp [Radix.path, chars])
    exact h

/-- C4.  Registering the identical pattern twice for the same method
fails: after `add GET /a/b` (callback 1) succeeds, a second
`add GET /a/b` (callback 2) raises the duplicate-handler error — the spec's
`DuplicateRouteError` — while `add POST /a/b` on the same router succeeds,
because each method owns an independent tree in `radixGroup`. -/
theorem c4_duplicate_route :
    ∃ r1 : Router,
      Router.add 100 {} { method := chars "GET", path := chars "/a/b", callback := 1 } =
        .ok r1 ∧
      Router.add 100 r1 { method := chars "GET", path := chars "/a/b", callback := 2 } =
        .error (.duplicateHandler (chars "/a/b")) ∧
      ∃ r2 : Router,
        Router.add 100 r1 { method := chars "POST", path := chars "/a/b", callback := 2 } =
          .ok r2 ∧
        mapGet r2.radixGroup (chars "GET") ≠ mapGet r2.radixGroup (chars "POST") :=
  ⟨addD 100 {} "GET" "/a/b" 1, rfl, rfl,
   addD 100 (addD 100 {} "GET" "/a/b" 1) "POST" "/a/b" 2, rfl, by
    intro h
    simp [addD, Router.add, mapGet, mapSet, chars] at h⟩

/-- C5, counterexample.  `add "/a/*x/y"` is not rejected: it succeeds and
produces a tree whose wildcard node `*x` has a child `/y`, violating the
claimed invariant that in every tree built by successful adds a wildcard
node has no children and nothing of the pattern follows the wildcard. -/
theorem c5_counterexample :
    Radix.add 100 Radix.empty (chars "/a/*x/y") 9 =
      .ok (Radix.mk (chars "/a/")
        [('*', Radix.mk (chars "*x")
          [('/', Radix.mk (chars "/y") [] (some 9))] none)] none) ∧
    (Radix.mk (chars "*x") [('/', Radix.mk (chars "/y") [] (some 9))] none).children ≠ [] :=
  ⟨rfl, by simp [Radix.children]⟩

/-- C5, amended.  Registration rejects only a second marker within the
same path segment (`add "/a/*x*y"` raises the wildcard-conflict error);
static pattern content after the wildcard's segment is accepted, and
becomes a child of the wildcard node — a child that `find` can never reach,
since a wildcard node ends the search: on the tree of `/a/*x/y`,
`find "/a/q/y"` returns no handler, with the wildcard having captured the
whole suffix `q/y`. -/
theorem c5_amended_wildcard_children :
    Radix.add 100 Radix.empty (chars "/a/*x*y") 1 =
      .error (.wildcardConflict (chars "*x") (chars "/a/*x*y")) ∧
    Radix.add 100 Radix.empty (chars "/a/*x/y") 9 =
      .ok (Radix.mk (chars "/a/")
        [('*', Radix.mk (chars "*x")
          [('/', Radix.mk (chars "/y") [] (some 9))] none)] none) ∧
    Radix.find 100 (addT 100 Radix.empty "/a/*x/y" 9) (chars "/a/q/y") =
      (none, [(chars "x", chars "q/y")]) :=
  ⟨rfl, rfl, rfl⟩

/-- C8, counterexample.  In `"/*x:"` the `:` marker is immediately followed
by the end of the pattern, yet `add` raises the wildcard-conflict error
(the `:` lies in a segment that already has the `*` marker, and the
segment scan rejects it first), not the empty-parameter-name error the
claim requires for every such pattern. -/
theorem c8_counterexample :
    Radix.add 100 Radix.empty (chars "/*x:") 1 =
      .error (.wildcardConflict (chars "*x") (chars "/*x:")) :=
  rfl

/-- C8, amended.  `add "/:/x"` and `add "/a/:"` fail with the
empty-parameter-name error: a `:` marker that is the first marker of its
segment and is immediately followed by `/` or the end of the pattern is an
empty parameter name.  When the same `:` sits in a segment that already
contains a marker, the wildcard-conflict error is raised instead, as
`"/*x:"` shows. -/
theorem c8_amended_empty_param :
    Radix.add 100 Radix.empty (chars "/:/x") 1 =
      .error (.emptyParamName (chars "/:/x")) ∧
    Radix.add 100 Radix.empty (chars "/a/:") 7 =
      .error (.emptyParamName (chars "/a/:")) ∧
    Radix.add 100 Radix.empty (chars "/*x:") 1 =
      .error (.wildcardConflict (chars "*x") (chars "/*x:")) :=
  ⟨rfl, rfl, rfl⟩

/-- C9, counterexample.  `"/:/a/*x*y"` contains two markers within the
single segment `*x*y`, yet `add` raises the empty-parameter-name error for
the earlier defective segment `:`, not the wildcard-conflict error the
claim requires for every pattern with a doubly-marked segment. -/
theorem c9_counterexample :
    Radix.add 100 Radix.empty (chars "/:/a/*x*y") 1 =
      .error (.emptyParamName (chars "/:/a/*x*y")) :=
  rfl

/-- C9, amended.  `add "/a/*x*y"` fails with the wildcard-conflict error,
and so does `add "/a/:x:"` — a second marker within one path segment is
rejected by the segment scan; but when an earlier segment is itself
defective, its error is raised first, as `"/:/a/*x*y"` raising the
empty-parameter-name error shows. -/
theorem c9_amended_wildcard_conflict :
    Radix.add 100 Radix.empty (chars "/a/*x*y") 1 =
      .error (.wildcardConflict (chars "*x") (chars "/a/*x*y")) ∧
    Radix.add 100 Radix.empty (chars "/a/:x:") 1 =
      .error (.wildcardConflict (chars ":x") (chars "/a/:x:")) ∧
    Radix.add 100 Radix.empty (chars "/:/a/*x*y") 1 =
      .error (.emptyParamName (chars "/:/a/*x*y")) :=
  ⟨rfl, rfl, rfl⟩

/-! ### Frame condition of `Router.find` -/

/-- Agreement of two optional routes on every field except `params`. -/
def routeAgrees : Option Route → Option Route → Prop
  | none, none => True
  | some a, some b =>
    a.method = b.method ∧ a.path = b.path ∧ a.callback = b.callback ∧
      a.template = b.template
  | _, _ => False

/-- Any optional route agrees with itself up to `params`. -/
theorem routeAgrees_refl (o : Option Route) : routeAgrees o o := by
  cases o <;> simp [routeAgrees]

/-- `setRouteParams` changes nothing but the `params` field of at most one
entry: pointwise, every position agrees up to `params`. -/
theorem setRouteParams_agrees (l : List Route) (cb : Callback) (ps : Bindings) :
    ∀ i : Nat, routeAgrees l[i]? (setRouteParams l cb ps)[i]? := by
  induction l with
  | nil => intro i; simp [setRouteParams, routeAgrees]
  | cons v rest ih =>
    intro i
    by_cases h : v.callback = cb
    · cases i with
      | zero => simp [setRouteParams, h, routeAgrees]
      | succ j => simp only [setRouteParams, h, if_pos, List.getElem?_cons_succ]
                  exact routeAgrees_refl _
    · cases i with
      | zero => simp [setRouteParams, h, routeAgrees]
      | succ j => simp only [setRouteParams, h, if_neg, List.getElem?_cons_succ,
                    not_false_eq_true]
                  exact ih j

/-- C6, counterexample.  `Router.find` is not read-only on the stored route
entries: on the router with the single route `GET /u/:id` whose stored
`params` is empty, `find "GET" "/u/7"` overwrites that entry's `params`
with `{id = "7"}`, so the stored route-entry list changes. -/
theorem c6_counterexample :
    paramRouter.routes.map Route.params = [[]] ∧
    ((Router.find 100 paramRouter (chars "GET") (chars "/u/7")).2).routes.map Route.params =
      [[(chars "id", chars "7")]] ∧
    ((Router.find 100 paramRouter (chars "GET") (chars "/u/7")).2).routes ≠
      paramRouter.routes := by
  refine ⟨rfl, rfl, ?_⟩
  decide

/-- C6, amended.  `Radix.find` itself is a read-only traversal, and
`Router.find` leaves the method trees untouched and preserves the stored
route-entry list pointwise in every field except `params`: the one entry
matched by callback identity gets its `params` field overwritten with the
new bindings (which the counterexample exhibits). -/
theorem c6_amended_frame :
    ∀ (fuel : Nat) (r : Router) (method path : Str),
      ((Router.find fuel r method path).2).radixGroup = r.radixGroup ∧
      ∀ i : Nat,
        routeAgrees r.routes[i]? (((Router.find fuel r method path).2).routes)[i]? := by
  intro fuel r method path
  have key : (Router.find fuel r method path).2 = r ∨
      ∃ cb params, (Router.find fuel r method path).2 =
        { radixGroup := r.radixGroup, routes := setRouteParams r.routes cb params } := by
    cases hg : mapGet r.radixGroup method with
    | none => simp [Router.find, hg]
    | some radix =>
      cases hf : Radix.find fuel radix path with
      | mk ocb params =>
        cases ocb with
        | none => simp [Router.find, hg, hf]
        | some cb =>
          cases hr : routesFind r.routes cb with
          | none => simp [Router.find, hg, hf, hr]
          | some route =>
            refine Or.inr ⟨cb, params, ?_⟩
            simp [Router.find, hg, hf, hr]
  rcases key with h | ⟨cb, params, h⟩
  · rw [h]
    exact ⟨rfl, fun i => routeAgrees_refl _⟩
  · rw [h]
    exact ⟨rfl, setRouteParams_agrees r.routes cb params⟩

/-- `routesFind` returns the first route with the given callback: the list
splits into a prefix containing no route with that callback, the found
route, and the rest. -/
theorem routesFind_first (cb : Callback) :
    ∀ (l : List Route) (r0 : Route), routesFind l cb = some r0 →
      r0.callback = cb ∧
        ∃ pre post, l = pre ++ r0 :: post ∧ ∀ x ∈ pre, x.callback ≠ cb := by
  intro l
  induction l with
  | nil => intro r0 h; simp [routesFind] at h
  | cons v rest ih =>
    intro r0 h
    by_cases hv : v.callback = cb
    · simp only [routesFind, hv, if_pos, Option.some.injEq] at h
      subst h
      exact ⟨hv, [], rest, rfl, by simp⟩
    · simp only [routesFind, hv, if_neg, not_false_eq_true] at h
      obtain ⟨hcb, pre, post, hsplit, hpre⟩ := ih r0 h
      refine ⟨hcb, v :: pre, post, by simp [hsplit], ?_⟩
      intro x hx
      rcases List.mem_cons.mp hx with hx | hx
      · rw [hx]; exact hv
      · exact hpre x hx

/-- C10.  When `Router.find` succeeds, the route it returns is the entry of
the earliest registration whose callback equals the one the tree lookup
yielded — regardless of which pattern actually matched: the registration
list splits as `pre ++ r0 :: post` with no callback hit in `pre`, and the
returned route is `r0` with only its `params` field replaced by the new
bindings. -/
theorem c10_earliest_entry :
    ∀ (fuel : Nat) (r : Router) (method path : Str) (route : Route),
      (Router.find fuel r method path).1 = some route →
      ∃ (radix : Radix) (cb : Callback) (ps : Bindings) (r0 : Route)
        (pre post : List Route),
        mapGet r.radixGroup method = some radix ∧
        Radix.find fuel radix path = (some cb, ps) ∧
        r.routes = pre ++ r0 :: post ∧
        (∀ x ∈ pre, x.callback ≠ cb) ∧
        r0.callback = cb ∧
        route = { r0 with params := ps } := by
  intro fuel r method path route h
  cases hg : mapGet r.radixGroup method with
  | none => simp [Router.find, hg] at h
  | some radix =>
    cases hf : Radix.find fuel radix path with
    | mk ocb params =>
      cases ocb with
      | none => simp [Router.find, hg, hf] at h
      | some cb =>
        cases hr : routesFind r.routes cb with
        | none => simp [Router.find, hg, hf, hr] at h
        | some route0 =>
          simp only [Router.find, hg, hf, hr, Option.some.injEq] at h
          obtain ⟨hcb, pre, post, hsplit, hpre⟩ := routesFind_first cb r.routes route0 hr
          exact ⟨radix, cb, params, route0, pre, post, rfl, hf, hsplit, hpre, hcb, h.symm⟩

/-- C10 witness: on `sharedCallbackRouter` (callback 5 registered first
under `GET /a`, then under `GET /b/:z`), `find "GET" "/b/9"` matches the
`/b/:z` pattern but returns the `/a` entry — the earliest registration with
callback 5 — with `params = {z = "9"}`. -/
theorem c10_earliest_entry_witness :
    (Router.find 100 sharedCallbackRouter (chars "GET") (chars "/b/9")).1 =
      some { method := chars "GET", path := chars "/a", callback := 5,
             params := [(chars "z", chars "9")] } ∧
    ∃ (radix : Radix) (cb : Callback) (ps : Bindings) (r0 : Route)
      (pre post : List Route),
      mapGet sharedCallbackRouter.radixGroup (chars "GET") = some radix ∧
      Radix.find 100 radix (chars "/b/9") = (some cb, ps) ∧
      sharedCallbackRouter.routes = pre ++ r0 :: post ∧
      (∀ x ∈ pre, x.callback ≠ cb) ∧
      r0.callback = cb ∧
      ({ method := chars "GET", path := chars "/a", callback := 5,
         params := [(chars "z", chars "9")] } : Route) = { r0 with params := ps } :=
  ⟨rfl, c10_earliest_entry 100 sharedCallbackRouter (chars "GET") (chars "/b/9")
    { method := chars "GET", path := chars "/a", callback := 5,
      params := [(chars "z", chars "9")] } rfl⟩

end DenoSpring
